import Mathlib

/-!
Verification of the Ripple-style build-sign-verify pipeline of the
CrossChain-Router chain-adapter layer (tokens/ripple/buildtx.go and
tokens/ripple/signtx.go), as a shallow embedding.

Conventions of the embedding:
* Go byte slices are `List Nat` with every element `< 256`.
* Go strings are Lean `String`; hex manipulation works on `String.data`.
* Fallible Go functions returning `(value, error)` become `Except String`.
* Go code that can dereference a nil pointer or slice out of range is
  modelled with an outer `Option`: `none` is a runtime panic.
* External collaborators (RPC clients, the MPC oracle, the vendored
  rubblelabs ledger library) are passed in as explicit oracle fields of an
  environment record; the control flow under verification is the one of
  the two Go source files.
-/

/-! ## Hexadecimal encoding and decoding (Go `encoding/hex`, `fmt %X`/`%x`) -/

/-- Lower-case hex digit for a nibble, as produced by `hex.EncodeToString`. -/
def nibbleCharL (n : Nat) : Char :=
  if n < 10 then Char.ofNat (48 + n) else Char.ofNat (87 + n)

/-- Upper-case hex digit for a nibble, as produced by `fmt.Sprintf %X`. -/
def nibbleCharU (n : Nat) : Char :=
  if n < 10 then Char.ofNat (48 + n) else Char.ofNat (55 + n)

/-- Go `encoding/hex.fromHexChar`: value of one hex digit, accepting
`0-9`, `a-f` and `A-F`. -/
def charNibble (c : Char) : Option Nat :=
  if 48 ≤ c.toNat ∧ c.toNat ≤ 57 then some (c.toNat - 48)
  else if 97 ≤ c.toNat ∧ c.toNat ≤ 102 then some (c.toNat - 87)
  else if 65 ≤ c.toNat ∧ c.toNat ≤ 70 then some (c.toNat - 55)
  else none

/-- Lower-case hex encoding of a byte list (Go `hex.EncodeToString`). -/
def hexEncL : List Nat → List Char
  | [] => []
  | b :: bs => nibbleCharL (b / 16) :: nibbleCharL (b % 16) :: hexEncL bs

/-- Upper-case hex encoding of a byte list (Go `fmt.Sprintf("%X", bytes)`). -/
def hexEncU : List Nat → List Char
  | [] => []
  | b :: bs => nibbleCharU (b / 16) :: nibbleCharU (b % 16) :: hexEncU bs

/-- Go `hex.DecodeString` as used with its error discarded: it decodes
pairs of hex digits from the front and stops at the first invalid pair or
at a trailing odd digit, returning the bytes decoded so far. -/
def hexDecodeGo : List Char → List Nat
  | c1 :: c2 :: rest =>
    match charNibble c1, charNibble c2 with
    | some a, some b => (16 * a + b) :: hexDecodeGo rest
    | _, _ => []
  | _ => []

theorem charNibble_nibbleCharL {n : Nat} (h : n < 16) :
    charNibble (nibbleCharL n) = some n := by
  interval_cases n <;> rfl

theorem charNibble_nibbleCharU {n : Nat} (h : n < 16) :
    charNibble (nibbleCharU n) = some n := by
  interval_cases n <;> rfl

theorem hexDecodeGo_hexEncU_append (bs : List Nat) (rest : List Char)
    (h : ∀ b ∈ bs, b < 256) :
    hexDecodeGo (hexEncU bs ++ rest) = bs ++ hexDecodeGo rest := by
  induction bs with
  | nil => rfl
  | cons b bs ih =>
    have hb : b < 256 := h b (List.mem_cons_self b bs)
    have hhi : b / 16 < 16 := Nat.div_lt_of_lt_mul (by omega)
    have hlo : b % 16 < 16 := Nat.mod_lt _ (by omega)
    simp only [hexEncU, List.cons_append, hexDecodeGo, List.append_eq,
      charNibble_nibbleCharU hhi, charNibble_nibbleCharU hlo]
    rw [ih (fun x hx => h x (List.mem_cons_of_mem b hx))]
    have : 16 * (b / 16) + b % 16 = b := by omega
    rw [this]

theorem hexDecodeGo_hexEncU_self (bs : List Nat) (h : ∀ b ∈ bs, b < 256) :
    hexDecodeGo (hexEncU bs) = bs := by
  have := hexDecodeGo_hexEncU_append bs [] h
  simpa [hexDecodeGo] using this

/-- Go `big.Int.SetString(s, 16)` on the strings this code feeds it
(non-empty, no sign, no prefix): fold the hex digits, failing on any
non-digit and on the empty string. -/
def parseHexCore : List Char → Nat → Option Nat
  | [], acc => some acc
  | c :: rest, acc =>
    match charNibble c with
    | some d => parseHexCore rest (16 * acc + d)
    | none => none

def parseHexNat (cs : List Char) : Option Nat :=
  if cs.isEmpty then none else parseHexCore cs 0

theorem parseHexCore_hexEncL (bs : List Nat) (acc : Nat)
    (h : ∀ b ∈ bs, b < 256) :
    parseHexCore (hexEncL bs) acc =
      some (bs.foldl (fun a b => 256 * a + b) acc) := by
  induction bs generalizing acc with
  | nil => rfl
  | cons b bs ih =>
    have hb : b < 256 := h b (List.mem_cons_self b bs)
    have hhi : b / 16 < 16 := Nat.div_lt_of_lt_mul (by omega)
    have hlo : b % 16 < 16 := Nat.mod_lt _ (by omega)
    simp only [hexEncL, parseHexCore,
      charNibble_nibbleCharL hhi, charNibble_nibbleCharL hlo]
    rw [ih _ (fun x hx => h x (List.mem_cons_of_mem b hx))]
    have : 16 * (16 * acc + b / 16) + b % 16 = 256 * acc + b := by omega
    rw [this]
    rfl

/-! ## Big-endian byte and hex representations of naturals -/

/-- Big-endian `k`-byte representation of `n` (the bytes `%064X` padding
stands for). -/
def natToBytesBE : Nat → Nat → List Nat
  | 0, _ => []
  | k + 1, n => natToBytesBE k (n / 256) ++ [n % 256]

theorem natToBytesBE_length (k n : Nat) : (natToBytesBE k n).length = k := by
  induction k generalizing n with
  | zero => rfl
  | succ k ih => simp [natToBytesBE, ih]

theorem natToBytesBE_lt (k n : Nat) : ∀ b ∈ natToBytesBE k n, b < 256 := by
  induction k generalizing n with
  | zero => intro b hb; simp [natToBytesBE] at hb
  | succ k ih =>
    intro b hb
    simp only [natToBytesBE, List.mem_append, List.mem_singleton] at hb
    rcases hb with hb | hb
    · exact ih _ b hb
    · subst hb; exact Nat.mod_lt _ (by omega)

theorem natToBytesBE_foldl (k n acc : Nat) (h : n < 256 ^ k) :
    (natToBytesBE k n).foldl (fun a b => 256 * a + b) acc =
      acc * 256 ^ k + n := by
  induction k generalizing n acc with
  | zero =>
    simp only [natToBytesBE, List.foldl_nil, pow_zero]
    omega
  | succ k ih =>
    have hq : n / 256 < 256 ^ k := by
      rw [Nat.div_lt_iff_lt_mul (by omega)]
      calc n < 256 ^ (k + 1) := h
        _ = 256 ^ k * 256 := by rw [pow_succ]
    simp only [natToBytesBE, List.foldl_append, List.foldl_cons, List.foldl_nil]
    rw [ih _ _ hq]
    have hmod : 256 * (n / 256) + n % 256 = n := by omega
    calc 256 * (acc * 256 ^ k + n / 256) + n % 256
        = acc * (256 ^ k * 256) + (256 * (n / 256) + n % 256) := by ring
      _ = acc * 256 ^ (k + 1) + n := by rw [hmod, pow_succ]

theorem parseHexNat_hexEncL_natToBytesBE (k n : Nat) (hk : 0 < k)
    (h : n < 256 ^ k) :
    parseHexNat (hexEncL (natToBytesBE k n)) = some n := by
  have hne : natToBytesBE k n ≠ [] := by
    intro habs
    have := natToBytesBE_length k n
    rw [habs] at this
    simp at this
    omega
  have hlen : hexEncL (natToBytesBE k n) ≠ [] := by
    cases hb : natToBytesBE k n with
    | nil => exact absurd hb hne
    | cons b bs => simp [hexEncL]
  rw [parseHexNat, if_neg (by simpa [List.isEmpty_iff] using hlen)]
  rw [parseHexCore_hexEncL _ _ (natToBytesBE_lt k n)]
  rw [natToBytesBE_foldl k n 0 h]
  simp

/-! ## Go `fmt.Sprintf("%064X", bigInt)` -/

/-- Reversed minimal upper-case hex digits of `n` (empty for `0`). -/
def natHexRevU (n : Nat) : List Char :=
  if h : n = 0 then [] else nibbleCharU (n % 16) :: natHexRevU (n / 16)
  decreasing_by exact Nat.div_lt_self (Nat.pos_of_ne_zero h) (by norm_num)

/-- Minimal upper-case hex rendering of a non-negative `big.Int`
(`fmt %X`): `0` renders as `"0"`. -/
def natHexU (n : Nat) : List Char :=
  if n = 0 then ['0'] else (natHexRevU n).reverse

/-- Go `%064X` for a non-negative `big.Int`: left-pad the minimal hex with
zeros to width 64 (wider values are not truncated). -/
def sprintf064X (n : Nat) : List Char :=
  List.replicate (64 - (natHexU n).length) '0' ++ natHexU n

theorem natHexRevU_zero : natHexRevU 0 = [] := by
  rw [natHexRevU]
  simp

theorem natHexRevU_pos {n : Nat} (h : n ≠ 0) :
    natHexRevU n = nibbleCharU (n % 16) :: natHexRevU (n / 16) := by
  rw [natHexRevU]
  simp [h]

theorem natHexRevU_length_le (k : Nat) :
    ∀ n, n < 16 ^ k → (natHexRevU n).length ≤ k := by
  induction k with
  | zero =>
    intro n hn
    interval_cases n
    simp [natHexRevU_zero]
  | succ k ih =>
    intro n hn
    by_cases h : n = 0
    · subst h; simp [natHexRevU_zero]
    · rw [natHexRevU_pos h]
      simp only [List.length_cons]
      have : n / 16 < 16 ^ k := by
        rw [Nat.div_lt_iff_lt_mul (by norm_num)]
        calc n < 16 ^ (k + 1) := hn
          _ = 16 ^ k * 16 := by rw [pow_succ]
      exact Nat.succ_le_succ (ih _ this)

theorem hexEncU_append (xs ys : List Nat) :
    hexEncU (xs ++ ys) = hexEncU xs ++ hexEncU ys := by
  induction xs with
  | nil => rfl
  | cons x xs ih => simp [hexEncU, ih]

/-- Base case of the padding lemma: one byte. -/
theorem sprintf_pad_byte (n : Nat) (h : n < 256) :
    List.replicate (2 - (natHexU n).length) '0' ++ natHexU n =
      [nibbleCharU (n / 16), nibbleCharU (n % 16)] := by
  by_cases h0 : n = 0
  · subst h0; rfl
  · by_cases h16 : n < 16
    · rw [natHexU, if_neg h0, natHexRevU_pos h0,
        Nat.mod_eq_of_lt h16, Nat.div_eq_of_lt h16, natHexRevU_zero]
      have : nibbleCharU 0 = '0' := rfl
      simp [this]
    · have hq0 : n / 16 ≠ 0 := by omega
      have hq16 : n / 16 < 16 := by omega
      rw [natHexU, if_neg h0, natHexRevU_pos h0, natHexRevU_pos hq0,
        Nat.mod_eq_of_lt hq16, Nat.div_eq_of_lt hq16, natHexRevU_zero]
      rfl

/-- Main padding lemma: `%0(2k+2)X` of `n < 256^(k+1)` is the upper-case
hex encoding of its big-endian `(k+1)`-byte representation. -/
theorem sprintf_pad (k : Nat) :
    ∀ n, n < 256 ^ (k + 1) →
      List.replicate (2 * (k + 1) - (natHexU n).length) '0' ++ natHexU n =
        hexEncU (natToBytesBE (k + 1) n) := by
  induction k with
  | zero =>
    intro n hn
    have h256 : n < 256 := by simpa using hn
    have : natToBytesBE 1 n = [n % 256] := rfl
    rw [this, Nat.mod_eq_of_lt h256]
    have : hexEncU [n] = [nibbleCharU (n / 16), nibbleCharU (n % 16)] := rfl
    rw [this]
    exact sprintf_pad_byte n h256
  | succ k ih =>
    intro n hn
    have hq : n / 256 < 256 ^ (k + 1) := by
      rw [Nat.div_lt_iff_lt_mul (by norm_num)]
      calc n < 256 ^ (k + 2) := hn
        _ = 256 ^ (k + 1) * 256 := by rw [pow_succ]
    have hrhs : natToBytesBE (k + 2) n = natToBytesBE (k + 1) (n / 256) ++ [n % 256] := rfl
    rw [hrhs, hexEncU_append, ← ih _ hq]
    have hbyte : hexEncU [n % 256] =
        [nibbleCharU (n % 256 / 16), nibbleCharU (n % 256 % 16)] := rfl
    rw [hbyte]
    have hd : n % 256 / 16 = n / 16 % 16 := by omega
    have hm : n % 256 % 16 = n % 16 := by omega
    rw [hd, hm]
    by_cases hq0 : n / 256 = 0
    · -- n < 256 : both sides reduce to 2k+2 zeros followed by two digits
      have h256 : n < 256 := by omega
      have hd2 : n / 16 % 16 = n / 16 := by omega
      have hlen : (natHexU n).length ≤ 2 := by
        by_cases h0 : n = 0
        · subst h0; simp [natHexU]
        · rw [natHexU, if_neg h0]
          simpa using natHexRevU_length_le 2 n (by omega)
      have hsplit : 2 * (k + 2) - (natHexU n).length =
          2 * (k + 1) + (2 - (natHexU n).length) := by omega
      rw [hq0, hsplit, List.replicate_add, List.append_assoc, hd2,
        sprintf_pad_byte n h256]
      have hz : natHexU 0 = ['0'] := rfl
      rw [hz]
      simp only [List.length_cons, List.length_nil]
      have e1 : List.replicate (2 * (k + 1) - (0 + 1)) '0' ++ ['0'] =
          List.replicate (2 * (k + 1)) '0' := by
        have h2 : 2 * (k + 1) - (0 + 1) + 1 = 2 * (k + 1) := by omega
        rw [← List.replicate_succ', h2]
      rw [e1]
    · -- n ≥ 256 : peel the last two hex digits off the minimal rendering
      have h0 : n ≠ 0 := by omega
      have h16 : n / 16 ≠ 0 := by omega
      have hnx : natHexU n = natHexU (n / 256) ++
          [nibbleCharU (n / 16 % 16), nibbleCharU (n % 16)] := by
        have h2 : n / 16 / 16 = n / 256 := by
          rw [Nat.div_div_eq_div_mul]
        rw [natHexU, if_neg h0, natHexRevU_pos h0, natHexRevU_pos h16, h2,
          natHexU, if_neg hq0]
        simp
      have hlenq : (natHexU (n / 256)).length ≤ 2 * (k + 1) := by
        rw [natHexU, if_neg hq0]
        have : n / 256 < 16 ^ (2 * (k + 1)) := by
          calc n / 256 < 256 ^ (k + 1) := hq
            _ = 16 ^ (2 * (k + 1)) := by
                rw [show (256 : Nat) = 16 ^ 2 by norm_num, ← pow_mul, Nat.mul_comm]
        simpa using natHexRevU_length_le _ _ this
      rw [hnx]
      simp only [List.length_append, List.length_cons, List.length_nil]
      have hlen2 : 2 * (k + 2) - ((natHexU (n / 256)).length + (0 + 1 + 1)) =
          2 * (k + 1) - (natHexU (n / 256)).length := by omega
      rw [hlen2, ← List.append_assoc]

theorem sprintf064X_eq_hexEncU (n : Nat) (h : n < 256 ^ 32) :
    sprintf064X n = hexEncU (natToBytesBE 32 n) := by
  have := sprintf_pad 31 n (by exact_mod_cast h)
  simpa [sprintf064X] using this

/-! ## btcec signature serialization (`btcec.Signature.Serialize`) -/

/-- Minimal big-endian bytes of a natural, least significant first. -/
def natBytesRev (n : Nat) : List Nat :=
  if h : n = 0 then [] else n % 256 :: natBytesRev (n / 256)
  decreasing_by exact Nat.div_lt_self (Nat.pos_of_ne_zero h) (by norm_num)

/-- Go `big.Int.Bytes()`: minimal big-endian representation of the
absolute value; empty for zero. -/
def natBytesMin (n : Nat) : List Nat := (natBytesRev n).reverse

/-- btcec `canonicalizeInt`: the minimal big-endian bytes, with `[0]` for
zero and a leading zero byte added when the top bit is set. -/
def canonInt (v : Int) : List Nat :=
  let b0 := natBytesMin v.natAbs
  let b := if b0.isEmpty then [0] else b0
  if 128 ≤ b.headD 0 then 0 :: b else b

/-- secp256k1 group order `N`. -/
def secpN : Nat :=
  115792089237316195423570985008687907852837564279074904382605163141518161494337

/-- btcec `S256().halfOrder` (`N >> 1`). -/
def secpHalfOrder : Nat := secpN / 2

/-- btcec `Signature.Serialize`: low-S normalize, canonicalize both
integers, and emit the DER sequence. -/
def btcecSerialize (r s : Nat) : List Nat :=
  let s2 : Int := if secpHalfOrder < s then (secpN : Int) - (s : Int) else (s : Int)
  let rb := canonInt r
  let sb := canonInt s2
  let totalLen := 6 + rb.length + sb.length
  [48, (totalLen - 2) % 256, 2, rb.length % 256] ++ rb ++
    ([2, sb.length % 256] ++ sb)

/-! ## anyswap `common` hex helpers.

Modelled from the spec: the `common` package of this repository is not
under `src/`; the spec describes these helpers only through their use
("RSV is the raw signature hex", "send the hex-encoded full payload").
They are modelled with the standard go-ethereum-style semantics the spec
relies on: `FromHex` strips an optional `0x`/`0X` prefix, left-pads an
odd-length string with one `0`, and hex-decodes discarding the error;
`ToHex` prepends `0x` to the lower-case hex encoding (`"0"` for empty). -/

/-- Prefix-stripping step of `common.FromHex`. -/
def fromHexStrip (s : List Char) : List Char :=
  if s.take 2 = ['0', 'x'] ∨ s.take 2 = ['0', 'X'] then s.drop 2 else s

/-- Odd-length padding step of `common.FromHex`. -/
def fromHexEven (s : List Char) : List Char :=
  if s.length % 2 = 1 then '0' :: s else s

/-- Go `common.FromHex` (modelled from the spec, see section comment). -/
def fromHex (s : List Char) : List Nat :=
  hexDecodeGo (fromHexEven (fromHexStrip s))

/-- Go `common.ToHex` (modelled from the spec, see section comment). -/
def toHex (bs : List Nat) : List Char :=
  '0' :: 'x' :: (if bs.isEmpty then ['0'] else hexEncL bs)

theorem hexEncU_length (bs : List Nat) : (hexEncU bs).length = 2 * bs.length := by
  induction bs with
  | nil => rfl
  | cons b bs ih => simp [hexEncU, ih]; omega

theorem nibbleCharU_ne_xX {n : Nat} (h : n < 16) :
    nibbleCharU n ≠ 'x' ∧ nibbleCharU n ≠ 'X' := by
  interval_cases n <;> exact ⟨by decide, by decide⟩

/-- Characters produced by `hexEncU` are hex digits, so an upper-case hex
string never starts with `0x` or `0X`. -/
theorem hexEncU_no_0x (bs : List Nat) :
    ¬((hexEncU bs).take 2 = ['0', 'x'] ∨ (hexEncU bs).take 2 = ['0', 'X']) := by
  intro habs
  cases bs with
  | nil => revert habs; decide
  | cons b bs =>
    have hm : b % 16 < 16 := Nat.mod_lt _ (by omega)
    have hne := nibbleCharU_ne_xX hm
    rcases habs with h | h <;>
      simp only [hexEncU, List.take_succ_cons, List.take_zero,
        List.cons.injEq, and_true] at h
    · exact hne.1 h.2
    · exact hne.2 h.2

/-- `common.FromHex` is a left inverse of `fmt %X` on byte lists: the
EdDSA RSV round-trip. -/
theorem fromHex_hexEncU (bs : List Nat) (h : ∀ b ∈ bs, b < 256) :
    fromHex (hexEncU bs) = bs := by
  unfold fromHex fromHexEven fromHexStrip
  rw [if_neg (hexEncU_no_0x bs)]
  rw [if_neg (by rw [hexEncU_length]; omega)]
  exact hexDecodeGo_hexEncU_self bs h

/-! ## signtx.go: signature codec -/

/-- Go `isEd25519Pubkey` (signtx.go:189): a raw public key is EdDSA iff
it is `ed25519.PublicKeySize+1 = 33` bytes long and starts with `0xED`. -/
def isEd25519Pubkey (pubkey : List Nat) : Bool :=
  pubkey.length == 32 + 1 && pubkey.headD 0 == 0xED

/-- Go `rsvToSig` (signtx.go:193). `none` is a Go runtime panic: on the
ECDSA branch the error of `hex.DecodeString` is discarded and the decoded
slice is indexed at `[:32]` and `[32:64]`, which panics when fewer than
64 bytes were decoded; a failed `big.Int.SetString` leaves a nil integer
that panics inside `Signature.Serialize`. -/
def rsvToSig (rsv : List Char) (isEd : Bool) : Option (List Nat) :=
  if isEd then some (fromHex rsv)
  else if 64 ≤ (hexDecodeGo rsv).length then
    match parseHexNat (hexEncL ((hexDecodeGo rsv).take 32)),
          parseHexNat (hexEncL (((hexDecodeGo rsv).drop 32).take 32)) with
    | some r, some s => some (btcecSerialize r s)
    | _, _ => none
  else none

/-- RSV encoding of an EdDSA signature (signtx.go:156, `fmt %X`). -/
def rsvEncodeEd (sig : List Nat) : List Char := hexEncU sig

/-- RSV encoding of an ECDSA `(R, S)` pair (signtx.go:162,
`fmt.Sprintf("%064X%064X00", R, S)`). -/
def rsvEncodeECDSA (r s : Nat) : List Char :=
  sprintf064X r ++ sprintf064X s ++ ['0', '0']

theorem rsvToSig_rsvEncodeEd (sig : List Nat) (h : ∀ b ∈ sig, b < 256) :
    rsvToSig (rsvEncodeEd sig) true = some sig := by
  unfold rsvToSig rsvEncodeEd
  simp [fromHex_hexEncU sig h]

theorem rsvToSig_rsvEncodeECDSA (r s : Nat) (hr : r < 256 ^ 32)
    (hs : s < 256 ^ 32) :
    rsvToSig (rsvEncodeECDSA r s) false = some (btcecSerialize r s) := by
  have h00 : hexDecodeGo ['0', '0'] = [0] := rfl
  have hdec : hexDecodeGo (rsvEncodeECDSA r s) =
      natToBytesBE 32 r ++ (natToBytesBE 32 s ++ [0]) := by
    rw [rsvEncodeECDSA, sprintf064X_eq_hexEncU r hr, sprintf064X_eq_hexEncU s hs,
      List.append_assoc,
      hexDecodeGo_hexEncU_append _ _ (natToBytesBE_lt 32 r),
      hexDecodeGo_hexEncU_append _ _ (natToBytesBE_lt 32 s), h00]
  have htake : (hexDecodeGo (rsvEncodeECDSA r s)).take 32 = natToBytesBE 32 r := by
    rw [hdec]
    exact List.take_left' (natToBytesBE_length 32 r)
  have hdrop : ((hexDecodeGo (rsvEncodeECDSA r s)).drop 32).take 32 =
      natToBytesBE 32 s := by
    rw [hdec, List.drop_left' (natToBytesBE_length 32 r)]
    exact List.take_left' (natToBytesBE_length 32 s)
  have hlen : (hexDecodeGo (rsvEncodeECDSA r s)).length = 65 := by
    rw [hdec]
    simp [natToBytesBE_length]
  unfold rsvToSig
  rw [htake, hdrop, hlen,
    parseHexNat_hexEncL_natToBytesBE 32 r (by norm_num) hr,
    parseHexNat_hexEncL_natToBytesBE 32 s (by norm_num) hs]
  norm_num

/-- The ECDSA branch of `rsvToSig` panics whenever fewer than 64 bytes
decode from the RSV string. -/
theorem rsvToSig_short_none (rsv : List Char)
    (h : (hexDecodeGo rsv).length < 64) :
    rsvToSig rsv false = none := by
  unfold rsvToSig
  rw [if_neg (by simp), if_neg (by omega)]

/-! ## Data model

Records for the values flowing through buildtx.go and signtx.go. Types
owned by packages outside `src/` (tokens, rubblelabs data, mpc) carry only
the fields and behaviour these two files use. -/

/-- Entry of the ripple package `currencyMap` (`data.Currency`): a
currency code plus its native-XRP flag (`Currency.IsNative`). -/
structure RippleCurrency where
  name : String
  isNative : Bool
deriving DecidableEq

/-- Go `data.Amount`: either a native drop count or an issued-asset
(value, currency, issuer) triple. Issued `data.Value` arithmetic
(`NewNonNativeValue`, `Value.Compare`) lives in the vendored rubblelabs
package outside `src/`; modelled from the spec ("`value` carries its own
decimal-scaled representation", compared numerically) as a rational. -/
inductive PaymentAmount where
  | native (drops : Int)
  | issued (value : Rat) (currency : String) (issuer : String)
deriving DecidableEq

/-- Numeric value used by `Value.Compare` (modelled from the spec; only
the issued form reaches that comparison in this code). -/
def PaymentAmount.valueRat : PaymentAmount → Rat
  | .native d => (d : Rat)
  | .issued v _ _ => v

/-- Go `tokens.TokenConfig.RippleExtra`. `isNativeToken` models the
`RippleExtra.IsNative()` predicate of the tokens package (not under
`src/`); the spec reads it as "whether it represents the chain's native
asset or an issued asset identified by a (currency-code, issuer-address)
pair". -/
structure RippleExtraCfg where
  currency : String
  issuer : String
  isNativeToken : Bool
deriving DecidableEq

/-- Go `tokens.TokenConfig` (the fields buildtx.go reads). -/
structure TokenConfig where
  decimals : Nat
  rippleExtra : RippleExtraCfg
deriving DecidableEq

/-- Go `tokens.AllExtras` (the fields buildtx.go reads): two pointer
fields, `none` is a nil pointer. -/
structure AllExtras where
  sequence : Option Nat
  fee : Option String
deriving DecidableEq

/-- Ledger account data: `account.AccountData.Sequence` is a nullable
pointer. -/
structure AccountData where
  sequence : Option Nat
deriving DecidableEq

/-- Go `tokens.BuildTxArgs` (the fields these two files read).
`fromAddr` is `args.From`, `token`/`tokenID` come from
`args.ERC20SwapInfo`. -/
structure BuildTxArgs where
  fromAddr : String
  bind : String
  toChainID : String
  fromChainID : String
  swapType : Nat
  tokenID : String
  token : String
  extra : Option AllExtras
deriving DecidableEq

/-- Go `data.Payment` (the fields these two files touch). The single
memo `NewUnsignedPaymentTransaction` may append is the `memoType`
(constant `"BIND"`) / `memoData` pair; `feeStr` records the fee string
handed to `data.NewValue`. -/
structure Payment where
  destination : String
  amount : PaymentAmount
  destinationTag : Option Nat
  memoType : Option String
  memoData : Option String
  hasPaths : Bool
  flags : Nat
  sequence : Nat
  feeStr : String
  account : List Nat
  pubkey : List Nat
  signature : Option (List Nat)
  hash : List Nat
deriving DecidableEq

/-- A Go `interface{}`/`data.Transaction` value handed to the signers:
either a `*data.Payment` or anything else (failing the type assertion). -/
inductive RawTx where
  | payment (p : Payment)
  | other
deriving DecidableEq

/-- Tags `mpc.SignTypeEC256K1` and `mpc.SignTypeED25519` of the signing
oracle (mpc package, not under `src/`; only the two constant names are
used by signtx.go). -/
inductive MpcSignType where
  | ec256k1
  | ed25519
deriving DecidableEq

deriving instance DecidableEq for Except

/-- Go `tokens.ERC20SwapType` (the only supported swap type). -/
def erc20SwapType : Nat := 1

/-- buildtx.go:19 `accountReserve = big.NewInt(10000000)`. -/
def accountReserve : Int := 10000000

/-- buildtx.go:18 `defaultFee int64 = 10`. -/
def defaultFee : Int := 10

/-- Flag constants of the vendored data package (values as in rubblelabs;
only which flags are set matters here). -/
def txNoDirectRipple : Nat := 65536

def txPartPayFlag : Nat := 131072

def txLimitQuality : Nat := 262144

/-- Error sentinels of the tokens package (not under `src/`): their texts
are opaque; distinct constants stand for the distinct `tokens.Err...`
values buildtx.go returns. -/
def errToChainIDMismatch : String := "to chainID mismatch"

def errSenderMismatch : String := "sender mismatch"

def errSwapTypeNotSupported : String := "swap type not supported"

def errMissMPCPublicKey : String := "miss mpc public key config"

def errMissTokenConfig : String := "miss token config"

def errNoBridgeForChainID : String := "no bridge for chain id"

/-- ASCII lower-casing of one character. -/
def charToLowerAscii (c : Char) : Char :=
  if 65 ≤ c.toNat ∧ c.toNat ≤ 90 then Char.ofNat (c.toNat + 32) else c

/-- Go `common.IsEqualIgnoreCase` (`strings.EqualFold` on the ASCII
addresses used here); modelled from the spec as case-insensitive string
equality. -/
def isEqualIgnoreCase (a b : String) : Bool :=
  a.data.map charToLowerAscii == b.data.map charToLowerAscii

/-- Go `big.Int.IsInt64`. -/
def isInt64 (a : Int) : Bool := decide (-(2 ^ 63) ≤ a ∧ a ≤ 2 ^ 63 - 1)

/-- Environment of oracles: results of every call the two files make
into packages outside `src/` (router registry, params, RPC clients, the
MPC oracle, the vendored rubblelabs library). The control flow under
verification consumes these as explicit inputs. -/
structure Env where
  isTestMode : Bool
  chainID : String
  getRouterMPC : Except String String
  getMPCPublicKey : String → String
  getCachedMultichainToken : String → String
  getTokenConfig : String → Option TokenConfig
  isValidAddress : String → Bool
  fromBridgeToken : Option (Option TokenConfig)
  calcSwapValue : Int
  routerConfigSet : Bool
  minReserveFee : Option Int
  getBalance : String → Except String Int
  getAccountLine : String → String → String → Except String Rat
  getAccount : String → Except String AccountData
  adjustNonce : String → Nat → Nat
  currencyMap : String → Option RippleCurrency
  issuerMap : String → Option String
  newNonNativeValue : Int → Int → Except String Rat
  nativeValueString : Int → String
  newValue : String → Bool → Except String Unit
  amountString : PaymentAmount → String
  parseAccount : String → String
  parseAmount : String → PaymentAmount
  signingHash : Payment → Except String (List Nat × List Nat)
  signPfx : List Nat
  rawEncode : Payment → Except String (List Nat)
  keyId : List Nat
  keyPublic : List Nat
  signWithPrivateKey : Bool
  hexToECDSA : Except String Unit
  mpcSign : MpcSignType → String → String → Except String (String × List String)
  hashString : List Nat → String
  verify : List Nat → List Nat → List Nat → List Nat → Bool × Option String
  rsign : List Nat → List Nat → Except String (List Nat)
  parseSignature : List Nat → Except String (Nat × Nat)

/-! ## buildtx.go -/

/-- Go `data.NewAmount` on an `int64` (vendored rubblelabs code, not
under `src/`). Modelled from the spec: a native `PaymentAmount` is "a
native integer amount" whose only invariant is fitting a 64-bit signed
integer, which the caller has just checked, so construction from an
`int64` succeeds. -/
def newAmount (v : Int) : Except String PaymentAmount :=
  .ok (.native v)

/-- Go `getPaymentAmount` (buildtx.go:145). -/
def getPaymentAmount (env : Env) (amount : Int) (token : TokenConfig) :
    Except String PaymentAmount :=
  match env.currencyMap token.rippleExtra.currency with
  | none => .error ("non exist currency " ++ token.rippleExtra.currency)
  | some currency =>
    if ! isInt64 amount then
      .error ("amount value " ++ toString amount ++ " is overflow of type int64")
    else if currency.isNative then
      newAmount amount
    else
      match env.issuerMap token.rippleExtra.issuer with
      | none => .error ("non exist issuer " ++ token.rippleExtra.issuer)
      | some issuer =>
        match env.newNonNativeValue amount (-(token.decimals : Int)) with
        | .error e => .error e
        | .ok value => .ok (.issued value currency.name issuer)

/-- Go `getMinReserveFee` (buildtx.go:178): `0` when the router config is
absent, else the per-chain value, else the hard-coded default `100000`
(0.1 XRP). -/
def getMinReserveFee (env : Env) : Int :=
  if ! env.routerConfigSet then 0
  else
    match env.minReserveFee with
    | none => 100000
    | some v => v

/-- Go `checkNativeBalance` (buildtx.go:214). A failed balance fetch
falls back to a zero balance (spec design note: "the source silently
defaults a failed balance fetch to zero"). -/
def checkNativeBalance (env : Env) (account : String) (amount : Option Int)
    (isPay : Bool) : Except String Unit :=
  let balance : Int :=
    match env.getBalance account with
    | .error _ => 0
    | .ok b => b
  let remain : Int :=
    match amount with
    | none => balance
    | some amt => if isPay then balance - amt else balance + amt
  if remain < accountReserve then
    if isPay then .error ("insufficient native balance, sender: " ++ account)
    else .error ("insufficient native balance, receiver: " ++ account)
  else .ok ()

/-- Go `checkNonNativeBalance` (buildtx.go:239); `Value.Compare` is the
numeric comparison of the modelled rational values. -/
def checkNonNativeBalance (env : Env) (currency issuer account : String)
    (amount : PaymentAmount) : Except String Unit :=
  match env.getAccountLine currency issuer account with
  | .error e => .error e
  | .ok lineBalance =>
    if lineBalance < amount.valueRat then
      .error ("insufficient " ++ currency ++ " balance, issuer: " ++ issuer ++
        ", account: " ++ account)
    else .ok ()

/-- Go `GetPoolNonce` (buildtx.go:260): a nil `Sequence` pointer on a
fetched account reads as zero; a failed account fetch is an error. -/
def GetPoolNonce (env : Env) (address : String) : Except String Nat :=
  match env.getAccount address with
  | .error e => .error ("cannot get account, " ++ e)
  | .ok account =>
    match account.sequence with
    | none => .ok 0
    | some seq => .ok seq

/-- Go `GetSeq` (buildtx.go:273) for a non-nil `args` (the embedding has
no nil `BuildTxArgs`). -/
def GetSeq (env : Env) (args : BuildTxArgs) : Except String Nat :=
  match GetPoolNonce env args.fromAddr with
  | .error e => .error e
  | .ok nonceVal => .ok (env.adjustNonce args.fromAddr nonceVal)

/-- Go `swapoutDefaultArgs` (buildtx.go:190). When `GetSeq` fails the Go
code only logs a warning and then dereferences the nil sequence pointer
(`*args.Sequence = *seq`), a runtime panic: `none`. -/
def swapoutDefaultArgs (env : Env) (txargs : BuildTxArgs)
    (multichainToken : String) : Option AllExtras :=
  match env.getTokenConfig multichainToken with
  | none => some { sequence := some 0, fee := some "" }
  | some _ =>
    match GetSeq env txargs with
    | .error _ => none
    | .ok seq =>
      some { sequence := some seq, fee := some (env.nativeValueString defaultFee) }

/-- Go `getReceiverAndAmount` (buildtx.go:121). `fromBridgeToken` is the
composite oracle for `GetBridgeByChainID` (outer `Option`) and the
from-bridge token config lookup (inner `Option`); the swap value itself
comes from the external route calculator `tokens.CalcSwapValue`. -/
def getReceiverAndAmount (env : Env) (args : BuildTxArgs)
    (multichainToken : String) : Except String (String × Int) :=
  if args.bind = "" ∨ ¬ env.isValidAddress args.bind then
    .error "can not swapout to empty or invalid receiver"
  else
    match env.fromBridgeToken with
    | none => .error errNoBridgeForChainID
    | some none => .error errMissTokenConfig
    | some (some _) =>
      match env.getTokenConfig multichainToken with
      | none => .error errMissTokenConfig
      | some _ => .ok (args.bind, env.calcSwapValue)

/-- Go `NewUnsignedPaymentTransaction` (buildtx.go:287): on a fee-string
parse failure or a signing-hash failure it returns `(nil, Hash256{},
nil)` with no error value at all. -/
def NewUnsignedPaymentTransaction (env : Env) (txseq : Nat) (dest : String)
    (destinationTag : Option Nat) (amt fee memo path : String)
    (nodirect partPay limitQ : Bool) :
    Option Payment × List Nat × Option (List Nat) :=
  let payment : Payment :=
    { destination := env.parseAccount dest
      amount := env.parseAmount amt
      destinationTag := destinationTag
      memoType := if memo != "" then some "BIND" else none
      memoData := if memo != "" then some memo else none
      hasPaths := path != ""
      flags := (if nodirect then txNoDirectRipple else 0) |||
               (if partPay then txPartPayFlag else 0) |||
               (if limitQ then txLimitQuality else 0)
      sequence := txseq
      feeStr := fee
      account := env.keyId
      pubkey := env.keyPublic
      signature := none
      hash := [] }
  match env.newValue fee true with
  | .error _ => (none, List.replicate 32 0, none)
  | .ok _ =>
    match env.signingHash payment with
    | .error _ => (none, List.replicate 32 0, none)
    | .ok (hash, msg) => (some payment, hash, some msg)

/-- Go `BuildRawTransaction` (buildtx.go:24). The outer `Option` is a
runtime panic (propagated from `swapoutDefaultArgs`); the inner pair is
the Go `(rawTx interface{}, err error)` return, either side of which can
be nil. The final statement is `rawtx, _, _ := NewUnsignedPaymentTransaction(...);
return rawtx, err`, with `err` necessarily nil at that point. -/
def BuildRawTransaction (env : Env) (args : BuildTxArgs) :
    Option (Option Payment × Option String) :=
  if ¬ env.isTestMode ∧ args.toChainID ≠ env.chainID then
    some (none, some errToChainIDMismatch)
  else if args.fromAddr = "" then
    some (none, some "forbid empty sender")
  else
    match env.getRouterMPC with
    | .error e => some (none, some e)
    | .ok routerMPC =>
      if ¬ isEqualIgnoreCase args.fromAddr routerMPC then
        some (none, some errSenderMismatch)
      else if args.swapType ≠ erc20SwapType then
        some (none, some errSwapTypeNotSupported)
      else if env.getMPCPublicKey args.fromAddr = "" then
        some (none, some errMissMPCPublicKey)
      else if env.getCachedMultichainToken args.tokenID = "" then
        some (none, some errMissTokenConfig)
      else
        match env.getTokenConfig (env.getCachedMultichainToken args.tokenID) with
        | none => some (none, some errMissTokenConfig)
        | some token =>
          match getReceiverAndAmount env args (env.getCachedMultichainToken args.tokenID) with
          | .error e => some (none, some e)
          | .ok (receiver, amount) =>
            match
              ((match args.extra with
               | none =>
                 (swapoutDefaultArgs env args (env.getCachedMultichainToken args.tokenID)).map
                   (fun ex => (ex.sequence.getD 0, ex.fee.getD ""))
               | some extra => some (extra.sequence.getD 0, extra.fee.getD "")) :
                Option (Nat × String)) with
            | none => none
            | some (sequence, fee) =>
              match getPaymentAmount env amount token with
              | .error e => some (none, some e)
              | .ok amt =>
                match
                  ((if token.rippleExtra.isNativeToken then
                    match checkNativeBalance env args.fromAddr
                        (some (amount + getMinReserveFee env)) true with
                    | .error e => .error e
                    | .ok _ => checkNativeBalance env receiver (some amount) false
                  else
                    match checkNativeBalance env receiver none false with
                    | .error e => .error e
                    | .ok _ =>
                      checkNonNativeBalance env token.rippleExtra.currency
                        token.rippleExtra.issuer args.fromAddr amt) :
                    Except String Unit) with
                | .error e => some (none, some e)
                | .ok _ =>
                  some ((NewUnsignedPaymentTransaction env sequence receiver none
                    (env.amountString amt) fee "" "" false false false).1, none)

/-! ## signtx.go -/

/-- Go `verifyTransactionWithArgs` (signtx.go:24): the declared receiver
must equal the swap request's bind address (case-insensitively); a
non-payment transaction fails the type checks. -/
def verifyTransactionWithArgs (tx : RawTx) (args : BuildTxArgs) :
    Except String Unit :=
  match tx with
  | .other => .error "not a payment transaction"
  | .payment payment =>
    if ¬ isEqualIgnoreCase payment.destination args.bind then
      .error "[sign] verify tx receiver failed"
    else .ok ()

/-- Go `MakeSignedTransaction` (signtx.go:172): decode the RSV (which can
panic, see `rsvToSig`), inject the signature, serialize (`data.Raw`) and
recompute the hash from the serialization. -/
def MakeSignedTransaction (env : Env) (pubkey : List Nat) (rsv : String)
    (transaction : RawTx) : Option (Except String Payment) :=
  match rsvToSig rsv.data (isEd25519Pubkey pubkey) with
  | none => none
  | some sig =>
    match transaction with
    | .other => some (.error "type assertion error, transaction is not a payment")
    | .payment tx =>
      match env.rawEncode { tx with signature := some sig } with
      | .error e => some (.error e)
      | .ok hash => some (.ok { tx with signature := some sig, hash := hash })

/-- Algorithm selection of `MPCSignTransaction` (signtx.go:77-92),
returning `(pubkeyStr, signContent, signType)` exactly as the source
assigns them: for a 33-byte `0xED`-prefixed key it strips the marker,
sends `hex(signingPrefix ++ payload)` and sets `mpc.SignTypeEC256K1`;
otherwise it sends the hex signing hash and sets `mpc.SignTypeED25519`. -/
def mpcSignSelect (pubkeyStr : String) (msgHashHex : String) (msg : List Nat) :
    String × String × MpcSignType :=
  if isEd25519Pubkey (fromHex pubkeyStr.data) then
    (pubkeyStr.drop 2, String.mk (toHex msg), .ec256k1)
  else
    (pubkeyStr, msgHashHex, .ed25519)

/-- Rendering of the `fmt.Errorf("verify signature error (valid: %v): %v",
valid, err)` message. -/
def verifyErrMsg (valid : Bool) (verr : Option String) : String :=
  "verify signature error (valid: " ++ toString valid ++ "): " ++
    (match verr with | none => "nil" | some e => e)

/-- Go `SignTransactionWithRippleKey` (signtx.go:129): local-key signing
with the same post-sign verification gate as the remote path, then RSV
encoding per key algorithm. -/
def SignTransactionWithRippleKey (env : Env) (rawTx : RawTx) :
    Option (Except String (Payment × String)) :=
  match rawTx with
  | .other => some (.error "sign transaction type assertion error")
  | .payment tx =>
    match env.signingHash tx with
    | .error e => some (.error e)
    | .ok (msgHash, msg0) =>
      match env.rsign msgHash (env.signPfx ++ msg0) with
      | .error e => some (.error ("sign hash error: " ++ e))
      | .ok sig =>
        if ¬ (env.verify env.keyPublic msgHash (env.signPfx ++ msg0) sig).1 ∨
            (env.verify env.keyPublic msgHash (env.signPfx ++ msg0) sig).2.isSome then
          some (.error (verifyErrMsg
            (env.verify env.keyPublic msgHash (env.signPfx ++ msg0) sig).1
            (env.verify env.keyPublic msgHash (env.signPfx ++ msg0) sig).2))
        else if isEd25519Pubkey env.keyPublic then
          match MakeSignedTransaction env env.keyPublic
              (String.mk (rsvEncodeEd sig)) rawTx with
          | none => none
          | some (.error e) => some (.error e)
          | some (.ok stx) => some (.ok (stx, env.hashString stx.hash))
        else
          match env.parseSignature sig with
          | .error e => some (.error ("parse signature error: " ++ e))
          | .ok (r, s) =>
            match MakeSignedTransaction env env.keyPublic
                (String.mk (rsvEncodeECDSA r s)) rawTx with
            | none => none
            | some (.error e) => some (.error e)
            | some (.ok stx) => some (.ok (stx, env.hashString stx.hash))

/-- Go `MPCSignTransaction` (signtx.go:44). The outer `Option` is a
runtime panic (a short RSV makes `rsvToSig` slice out of range before the
verification call). -/
def MPCSignTransaction (env : Env) (rawTx : RawTx) (args : BuildTxArgs) :
    Option (Except String (Payment × String)) :=
  match rawTx with
  | .other => some (.error "type assertion error, transaction is not a payment")
  | .payment tx =>
    match verifyTransactionWithArgs rawTx args with
    | .error e => some (.error e)
    | .ok _ =>
      if env.signWithPrivateKey then
        match env.hexToECDSA with
        | .error e => some (.error e)
        | .ok _ => SignTransactionWithRippleKey env rawTx
      else
        match env.signingHash tx with
        | .error e => some (.error ("get transaction signing hash failed: " ++ e))
        | .ok (msgHash, msg0) =>
          match env.mpcSign
              (mpcSignSelect (env.getMPCPublicKey args.fromAddr)
                (env.hashString msgHash) (env.signPfx ++ msg0)).2.2
              (mpcSignSelect (env.getMPCPublicKey args.fromAddr)
                (env.hashString msgHash) (env.signPfx ++ msg0)).1
              (mpcSignSelect (env.getMPCPublicKey args.fromAddr)
                (env.hashString msgHash) (env.signPfx ++ msg0)).2.1 with
          | .error e => some (.error e)
          | .ok (keyID, rsvs) =>
            if rsvs.length ≠ 1 then
              some (.error ("get sign status require one rsv but have " ++
                toString rsvs.length ++ " (keyID = " ++ keyID ++ ")"))
            else
              match rsvToSig (rsvs.headD "").data
                  (isEd25519Pubkey (fromHex (env.getMPCPublicKey args.fromAddr).data)) with
              | none => none
              | some sig =>
                if ¬ (env.verify (fromHex (env.getMPCPublicKey args.fromAddr).data)
                      msgHash (env.signPfx ++ msg0) sig).1 ∨
                    (env.verify (fromHex (env.getMPCPublicKey args.fromAddr).data)
                      msgHash (env.signPfx ++ msg0) sig).2.isSome then
                  some (.error (verifyErrMsg
                    (env.verify (fromHex (env.getMPCPublicKey args.fromAddr).data)
                      msgHash (env.signPfx ++ msg0) sig).1
                    (env.verify (fromHex (env.getMPCPublicKey args.fromAddr).data)
                      msgHash (env.signPfx ++ msg0) sig).2))
                else
                  match MakeSignedTransaction env
                      (fromHex (env.getMPCPublicKey args.fromAddr).data)
                      (rsvs.headD "") rawTx with
                  | none => none
                  | some (.error e) => some (.error e)
                  | some (.ok stx) => some (.ok (stx, env.hashString stx.hash))

/-! ## Concrete environments for witnesses and counterexamples -/

/-- A concrete, fully-evaluable environment whose every check passes;
claim-specific instantiations override the fields they exercise. -/
def baseEnv : Env where
  isTestMode := false
  chainID := "1000005788240112"
  getRouterMPC := .ok "rSenderAAA"
  getMPCPublicKey := fun _ => "03AB"
  getCachedMultichainToken := fun _ => "tokenKey"
  getTokenConfig := fun _ =>
    some { decimals := 6,
           rippleExtra := { currency := "XRP", issuer := "", isNativeToken := true } }
  isValidAddress := fun _ => true
  fromBridgeToken :=
    some (some { decimals := 18,
                 rippleExtra := { currency := "XRP", issuer := "", isNativeToken := true } })
  calcSwapValue := 1000000
  routerConfigSet := true
  minReserveFee := none
  getBalance := fun _ => .ok 100000000
  getAccountLine := fun _ _ _ => .ok 1000
  getAccount := fun _ => .ok { sequence := some 5 }
  adjustNonce := fun _ n => n
  currencyMap := fun c =>
    if c = "XRP" then some { name := "XRP", isNative := true }
    else some { name := c, isNative := false }
  issuerMap := fun i => some i
  newNonNativeValue := fun v d => .ok (mkRat v (10 ^ d.natAbs))
  nativeValueString := fun _ => "0.00001"
  newValue := fun _ _ => .ok ()
  amountString := fun _ => "1"
  parseAccount := fun a => a
  parseAmount := fun _ => .native 1
  signingHash := fun _ => .ok ([1], [2])
  signPfx := [83, 84, 88, 0]
  rawEncode := fun _ => .ok (List.replicate 32 7)
  keyId := [0]
  keyPublic := [2]
  signWithPrivateKey := false
  hexToECDSA := .ok ()
  mpcSign := fun _ _ _ => .ok ("key-id-1", ["00"])
  hashString := fun _ => "AABB"
  verify := fun _ _ _ _ => (true, none)
  rsign := fun _ _ => .ok [1]
  parseSignature := fun _ => .ok (1, 2)

/-! ## Claim C9 -/

/-- C9: the signature codec round-trips. For every ECDSA `(R, S)` pair
with `R` and `S` each fitting in 32 bytes, decoding the RSV encoding
(64 zero-padded hex chars of `R`, 64 of `S`, 2 trailing pad chars)
recovers the same pair re-serialized by the curve's canonical encoder
(`btcec.Signature.Serialize`); for every EdDSA signature, RSV encoding
followed by decoding is the identity on the raw signature bytes. -/
theorem rsv_codec_roundtrip (r s : Nat) (hr : r < 256 ^ 32) (hs : s < 256 ^ 32)
    (sig : List Nat) (hsig : ∀ b ∈ sig, b < 256) :
    rsvToSig (rsvEncodeECDSA r s) false = some (btcecSerialize r s) ∧
      rsvToSig (rsvEncodeEd sig) true = some sig :=
  ⟨rsvToSig_rsvEncodeECDSA r s hr hs, rsvToSig_rsvEncodeEd sig hsig⟩

/-- Witness for C9 at `R = 1`, `S = 2`, EdDSA signature `[3, 255]`. -/
theorem rsv_codec_roundtrip_witness :
    rsvToSig (rsvEncodeECDSA 1 2) false = some (btcecSerialize 1 2) ∧
      rsvToSig (rsvEncodeEd [3, 255]) true = some [3, 255] :=
  rsv_codec_roundtrip 1 2 (by norm_num) (by norm_num) [3, 255] (by decide)

/-! ## Claim C10 -/

/-- C10: `rsvToSig` is not total on the ECDSA path. For any RSV string
that decodes to fewer than 64 bytes (including any string rejected by
`hex.DecodeString`, whose error is discarded), the slicing at byte
offsets 32 and 64 is out of range, so `MakeSignedTransaction` panics
(diverges with no return value, modelled `none`) instead of returning an
error. -/
theorem makeSignedTransaction_short_rsv_panics (env : Env) (pubkey : List Nat)
    (rsv : String) (tx : RawTx)
    (hEd : isEd25519Pubkey pubkey = false)
    (hlen : (hexDecodeGo rsv.data).length < 64) :
    MakeSignedTransaction env pubkey rsv tx = none := by
  unfold MakeSignedTransaction
  rw [hEd, rsvToSig_short_none rsv.data hlen]

/-- Witness for C10: a one-byte RSV string `"00"` with a non-EdDSA
public key. -/
theorem makeSignedTransaction_short_rsv_panics_witness :
    isEd25519Pubkey [2] = false ∧ (hexDecodeGo ("00").data).length < 64 ∧
      MakeSignedTransaction baseEnv [2] "00" RawTx.other = none :=
  ⟨by decide, by decide,
    makeSignedTransaction_short_rsv_panics baseEnv [2] "00" RawTx.other
      (by decide) (by decide)⟩

/-! ## Claim C3 -/

/-- The 33-byte `0xED`-prefixed public key of the C3 scenario, as the hex
string `router.GetMPCPublicKey` returns. -/
def edPubkeyStrC3 : String :=
  "ED0000000000000000000000000000000000000000000000000000000000000000"

/-- C3 (code bug): at the claim's own scenario input (public key `0xED`
followed by 32 bytes) the source classifies the key EdDSA, strips the
marker and sends `hex(signingPrefix ++ payload)` as claimed, but it tags
the request `mpc.SignTypeEC256K1` — and tags non-EdDSA keys
`mpc.SignTypeED25519`: the two algorithm tags of signtx.go:88 and
signtx.go:91 are swapped relative to the claim and to their own names. -/
theorem mpcSignSelect_algorithm_tags_swapped :
    isEd25519Pubkey (fromHex edPubkeyStrC3.data) = true ∧
      (mpcSignSelect edPubkeyStrC3 "AABB" [1, 2]).1 = edPubkeyStrC3.drop 2 ∧
      (mpcSignSelect edPubkeyStrC3 "AABB" [1, 2]).2.1 = String.mk (toHex [1, 2]) ∧
      (mpcSignSelect edPubkeyStrC3 "AABB" [1, 2]).2.2 = MpcSignType.ec256k1 ∧
      (mpcSignSelect "03AB" "AABB" [1, 2]).2.2 = MpcSignType.ed25519 ∧
      MpcSignType.ec256k1 ≠ MpcSignType.ed25519 := by
  refine ⟨?_, ?_, ?_, ?_, ?_, ?_⟩ <;> decide

/-! ## Claim C8 -/

/-- C8: when the remote oracle returns any number of signature results
other than exactly one for a single-key request, `MPCSignTransaction`
returns a fatal error naming the correlation/key ID and the returned
count, and no signed transaction is produced. -/
theorem mpc_wrong_rsv_count_fatal (env : Env) (tx : Payment)
    (args : BuildTxArgs) (msgHash msg0 : List Nat) (keyID : String)
    (rsvs : List String)
    (hlocal : env.signWithPrivateKey = false)
    (hrecv : isEqualIgnoreCase tx.destination args.bind = true)
    (hhash : env.signingHash tx = .ok (msgHash, msg0))
    (horacle : ∀ t p c, env.mpcSign t p c = .ok (keyID, rsvs))
    (hn : rsvs.length ≠ 1) :
    MPCSignTransaction env (.payment tx) args =
      some (.error ("get sign status require one rsv but have " ++
        toString rsvs.length ++ " (keyID = " ++ keyID ++ ")")) := by
  have hverify : verifyTransactionWithArgs (RawTx.payment tx) args = Except.ok () := by
    simp [verifyTransactionWithArgs, hrecv]
  simp [MPCSignTransaction, hverify, hlocal, hhash, horacle, hn]

/-- Concrete swap request shared by signing witnesses. -/
def argsW : BuildTxArgs :=
  { fromAddr := "rSenderAAA", bind := "rReceiverBBB",
    toChainID := "1000005788240112", fromChainID := "5", swapType := 1,
    tokenID := "TOKEN", token := "0xToken", extra := none }

/-- Concrete unsigned payment shared by signing witnesses. -/
def payW : Payment :=
  { destination := "rReceiverBBB", amount := .native 1, destinationTag := none,
    memoType := none, memoData := none, hasPaths := false, flags := 0,
    sequence := 0, feeStr := "10", account := [0], pubkey := [2],
    signature := none, hash := [] }

/-- Environment whose oracle answers with two signatures. -/
def envC8 : Env :=
  { baseEnv with mpcSign := fun _ _ _ => .ok ("key-id-8", ["01", "02"]) }

/-- Witness for C8: the oracle returns 2 signatures; the failure names
the count 2 and the key ID. -/
theorem mpc_wrong_rsv_count_fatal_witness :
    MPCSignTransaction envC8 (.payment payW) argsW =
      some (.error ("get sign status require one rsv but have " ++
        toString ([("01" : String), "02"]).length ++ " (keyID = " ++ "key-id-8" ++ ")")) :=
  mpc_wrong_rsv_count_fatal envC8 payW argsW [1] [2] "key-id-8" ["01", "02"]
    (by decide) (by decide) rfl (fun _ _ _ => rfl) (by decide)

/-! ## Claim C1 -/

theorem localSign_gate_aux (env : Env) (rawTx : RawTx)
    (hvalid : ∀ pk h m sg, (env.verify pk h m sg).1 = false) :
    ∀ x, SignTransactionWithRippleKey env rawTx = some x →
      ∃ e, x = Except.error e := by
  intro x hx
  unfold SignTransactionWithRippleKey at hx
  simp only [hvalid, Bool.false_eq_true, not_false_eq_true, true_or, if_true] at hx
  repeat' split at hx
  all_goals
    simp only [Option.some.injEq] at hx
  all_goals
    exact ⟨_, hx.symm⟩

theorem mpcSign_gate_aux (env : Env) (args : BuildTxArgs) (rawTx : RawTx)
    (hvalid : ∀ pk h m sg, (env.verify pk h m sg).1 = false) :
    ∀ x, MPCSignTransaction env rawTx args = some x →
      ∃ e, x = Except.error e := by
  intro x hx
  unfold MPCSignTransaction at hx
  simp only [hvalid, Bool.false_eq_true, not_false_eq_true, true_or, if_true] at hx
  repeat' split at hx
  all_goals
    first
    | (simp only [Option.some.injEq] at hx
       exact ⟨_, hx.symm⟩)
    | (exact absurd hx (by simp))
    | (exact localSign_gate_aux env _ hvalid x hx)

/-- C1: for both signing paths (remote MPC signing and local-key
signing), if the obtained signature does not cryptographically verify
against the sender's public key and the computed signing hash/payload
(`rcrypto.Verify` reports invalid), the signing operation returns an
error whenever it returns at all, and no signed transaction is ever
returned to the caller. -/
theorem sign_verify_gate (env : Env) (args : BuildTxArgs) (rawTx : RawTx)
    (hvalid : ∀ pk h m sg, (env.verify pk h m sg).1 = false) :
    (∀ x, MPCSignTransaction env rawTx args = some x →
      ∃ e, x = Except.error e) ∧
    (∀ x, SignTransactionWithRippleKey env rawTx = some x →
      ∃ e, x = Except.error e) :=
  ⟨mpcSign_gate_aux env args rawTx hvalid, localSign_gate_aux env rawTx hvalid⟩

/-- Environment whose verifier rejects every signature. -/
def envC1 : Env := { baseEnv with verify := fun _ _ _ _ => (false, none) }

/-- Witness for C1: with a verifier that rejects everything, neither path
ever yields a signed transaction on the concrete request. -/
theorem sign_verify_gate_witness :
    (∀ x, MPCSignTransaction envC1 (.payment payW) argsW = some x →
      ∃ e, x = Except.error e) ∧
    (∀ x, SignTransactionWithRippleKey envC1 (.payment payW) = some x →
      ∃ e, x = Except.error e) :=
  sign_verify_gate envC1 argsW (.payment payW) (fun _ _ _ _ => rfl)

/-! ## Claim C6 -/

/-- Token config with a resolvable native currency, for the C6
counterexample. -/
def tokenC6 : TokenConfig :=
  { decimals := 6,
    rippleExtra := { currency := "XRP", issuer := "", isNativeToken := true } }

/-- C6 counterexample: the claim says `getPaymentAmount` accepts only
amounts representable as a non-negative 64-bit integer and fails with an
overflow error on every amount outside that range; but at the negative
amount `-1` (outside the non-negative range, inside `int64`) the code
performs only the `big.Int.IsInt64` check and returns success, not an
overflow error. -/
theorem getPaymentAmount_accepts_negative :
    getPaymentAmount baseEnv (-1) tokenC6 = .ok (.native (-1)) ∧
      ¬(0 : Int) ≤ -1 := by
  refine ⟨rfl, by decide⟩

/-- C6 (amended): `getPaymentAmount` accepts only amounts representable
as a signed 64-bit integer: whenever the currency resolves, every amount
outside `[-2^63, 2^63-1]` fails with an explicit overflow error naming
the offending value, and an in-range native amount is passed through
unchanged — never clamped, wrapped, or truncated. -/
theorem getPaymentAmount_int64_guard (env : Env) (token : TokenConfig)
    (cur : RippleCurrency) (amount : Int)
    (hcur : env.currencyMap token.rippleExtra.currency = some cur) :
    (isInt64 amount = false →
      getPaymentAmount env amount token =
        .error ("amount value " ++ toString amount ++
          " is overflow of type int64")) ∧
    (isInt64 amount = true → cur.isNative = true →
      getPaymentAmount env amount token = .ok (.native amount)) := by
  constructor
  · intro hov
    unfold getPaymentAmount
    rw [hcur]
    simp [hov]
  · intro hin hnat
    unfold getPaymentAmount
    rw [hcur]
    simp [hin, hnat, newAmount]

/-- Witness for the amended C6 at the out-of-range amount `2^63` and the
in-range amount `7`. -/
theorem getPaymentAmount_int64_guard_witness :
    (isInt64 (2 ^ 63) = false →
      getPaymentAmount baseEnv (2 ^ 63) tokenC6 =
        .error ("amount value " ++ toString (2 ^ 63 : Int) ++
          " is overflow of type int64")) ∧
    (isInt64 (2 ^ 63) = true →
      ({ name := "XRP", isNative := true } : RippleCurrency).isNative = true →
      getPaymentAmount baseEnv (2 ^ 63) tokenC6 = .ok (.native (2 ^ 63))) :=
  getPaymentAmount_int64_guard baseEnv tokenC6 { name := "XRP", isNative := true }
    (2 ^ 63) (by decide)

/-! ## Claim C4 -/

theorem isEqualIgnoreCase_refl (a : String) : isEqualIgnoreCase a a = true := by
  simp [isEqualIgnoreCase]

/-- C4: for every native-asset send that reaches the balance stage,
`BuildRawTransaction` fails with an "insufficient native balance, sender"
error whenever `senderBalance - amount - minReserveFee < 10,000,000`
(the account reserve floor), and otherwise with an "insufficient native
balance, receiver" error whenever `receiverBalance + amount <
10,000,000`. -/
theorem build_native_insufficient_balance (env : Env) (args : BuildTxArgs)
    (token : TokenConfig) (mtok : String) (ftc : TokenConfig)
    (seqv : Nat) (feev : String) (amt : PaymentAmount)
    (senderBal receiverBal : Int)
    (hchain : args.toChainID = env.chainID)
    (hfrom : args.fromAddr ≠ "")
    (hmpc : env.getRouterMPC = .ok args.fromAddr)
    (hswap : args.swapType = erc20SwapType)
    (hpub : env.getMPCPublicKey args.fromAddr ≠ "")
    (htokKey : env.getCachedMultichainToken args.tokenID = mtok)
    (hmtokne : mtok ≠ "")
    (hcfg : env.getTokenConfig mtok = some token)
    (hbind : args.bind ≠ "")
    (haddr : env.isValidAddress args.bind = true)
    (hbridge : env.fromBridgeToken = some (some ftc))
    (hextra : args.extra = some { sequence := some seqv, fee := some feev })
    (hpay : getPaymentAmount env env.calcSwapValue token = .ok amt)
    (hnative : token.rippleExtra.isNativeToken = true)
    (hsb : env.getBalance args.fromAddr = .ok senderBal)
    (hrb : env.getBalance args.bind = .ok receiverBal) :
    (senderBal - env.calcSwapValue - getMinReserveFee env < accountReserve →
      BuildRawTransaction env args =
        some (none, some ("insufficient native balance, sender: " ++ args.fromAddr))) ∧
    (¬ senderBal - env.calcSwapValue - getMinReserveFee env < accountReserve →
      receiverBal + env.calcSwapValue < accountReserve →
      BuildRawTransaction env args =
        some (none, some ("insufficient native balance, receiver: " ++ args.bind))) := by
  have hsub : senderBal - env.calcSwapValue - getMinReserveFee env =
      senderBal - (env.calcSwapValue + getMinReserveFee env) := by ring
  constructor
  · intro hP
    rw [hsub] at hP
    have hchk1 : checkNativeBalance env args.fromAddr
        (some (env.calcSwapValue + getMinReserveFee env)) true =
        .error ("insufficient native balance, sender: " ++ args.fromAddr) := by
      simp only [checkNativeBalance, hsb, if_true]
      rw [if_pos hP]
    simp only [BuildRawTransaction, getReceiverAndAmount,
      hchain, hfrom, hmpc, hswap, hpub, htokKey, hmtokne, hcfg, hbind, haddr,
      hbridge, hextra, hnative, isEqualIgnoreCase_refl]
    simp only [not_true, not_false_eq_true, and_false, false_and, false_or,
      or_false, if_true, if_false, ite_true, ite_false, ne_eq, if_neg,
      not_false_iff, Option.getD_some, and_true, true_and]
    rw [hpay, hchk1]
  · intro hP hQ
    rw [hsub] at hP
    have hchk1 : checkNativeBalance env args.fromAddr
        (some (env.calcSwapValue + getMinReserveFee env)) true = .ok () := by
      simp only [checkNativeBalance, hsb, if_true]
      rw [if_neg hP]
    have hchk2 : checkNativeBalance env args.bind (some env.calcSwapValue) false =
        .error ("insufficient native balance, receiver: " ++ args.bind) := by
      simp only [checkNativeBalance, hrb, Bool.false_eq_true, if_false]
      rw [if_pos hQ]
    simp only [BuildRawTransaction, getReceiverAndAmount,
      hchain, hfrom, hmpc, hswap, hpub, htokKey, hmtokne, hcfg, hbind, haddr,
      hbridge, hextra, hnative, isEqualIgnoreCase_refl]
    simp only [not_true, not_false_eq_true, and_false, false_and, false_or,
      or_false, if_true, if_false, ite_true, ite_false, ne_eq, if_neg,
      not_false_iff, Option.getD_some, and_true, true_and]
    rw [hpay, hchk1, hchk2]

/-- Environment of the C4 scenario: sender native balance 20,000,000
drops, receiver 50,000,000, requested amount 15,000,000, min-reserve-fee
left at its default 100,000. -/
def envC4 : Env :=
  { baseEnv with
    calcSwapValue := 15000000
    getBalance := fun a => if a = "rSenderAAA" then .ok 20000000 else .ok 50000000 }

/-- Request with a pre-populated `Extra` slot, shared by build witnesses. -/
def argsExtraW : BuildTxArgs :=
  { argsW with extra := some { sequence := some 1, fee := some "10" } }

/-- Witness for C4 at the spec scenario: `20,000,000 - 15,000,000 -
100,000 = 4,900,000 < 10,000,000` fails on the sender side. -/
theorem build_native_insufficient_balance_witness :
    BuildRawTransaction envC4 argsExtraW =
      some (none, some ("insufficient native balance, sender: " ++ argsExtraW.fromAddr)) :=
  (build_native_insufficient_balance envC4 argsExtraW ⟨6, ⟨"XRP", "", true⟩⟩
      "tokenKey" ⟨18, ⟨"XRP", "", true⟩⟩ 1 "10" (.native 15000000)
      20000000 50000000
      rfl (by decide) rfl rfl (by decide) rfl (by decide) rfl (by decide) rfl
      rfl rfl rfl rfl rfl rfl).1
    (by decide)

/-! ## Claim C7 -/

/-- C7: for every issued-asset (non-native) send that reaches the balance
stage, the build fails with an "insufficient native balance, receiver"
error whenever the destination account's native balance is below the
10,000,000 reserve floor — regardless of the issued-asset amount — and
otherwise fails with an insufficient issued-balance error whenever the
sender's trust-line balance for the (currency, issuer) pair is less than
the amount being sent. -/
theorem build_issued_insufficient_balance (env : Env) (args : BuildTxArgs)
    (token : TokenConfig) (mtok : String) (ftc : TokenConfig)
    (seqv : Nat) (feev : String) (amt : PaymentAmount)
    (lineBal : Rat) (receiverBal : Int)
    (hchain : args.toChainID = env.chainID)
    (hfrom : args.fromAddr ≠ "")
    (hmpc : env.getRouterMPC = .ok args.fromAddr)
    (hswap : args.swapType = erc20SwapType)
    (hpub : env.getMPCPublicKey args.fromAddr ≠ "")
    (htokKey : env.getCachedMultichainToken args.tokenID = mtok)
    (hmtokne : mtok ≠ "")
    (hcfg : env.getTokenConfig mtok = some token)
    (hbind : args.bind ≠ "")
    (haddr : env.isValidAddress args.bind = true)
    (hbridge : env.fromBridgeToken = some (some ftc))
    (hextra : args.extra = some { sequence := some seqv, fee := some feev })
    (hpay : getPaymentAmount env env.calcSwapValue token = .ok amt)
    (hnonnative : token.rippleExtra.isNativeToken = false)
    (hrb : env.getBalance args.bind = .ok receiverBal)
    (hline : env.getAccountLine token.rippleExtra.currency
      token.rippleExtra.issuer args.fromAddr = .ok lineBal) :
    (receiverBal < accountReserve →
      BuildRawTransaction env args =
        some (none, some ("insufficient native balance, receiver: " ++ args.bind))) ∧
    (¬ receiverBal < accountReserve → lineBal < amt.valueRat →
      BuildRawTransaction env args =
        some (none, some ("insufficient " ++ token.rippleExtra.currency ++
          " balance, issuer: " ++ token.rippleExtra.issuer ++
          ", account: " ++ args.fromAddr))) := by
  constructor
  · intro hP
    have hchk : checkNativeBalance env args.bind none false =
        .error ("insufficient native balance, receiver: " ++ args.bind) := by
      simp only [checkNativeBalance, hrb, Bool.false_eq_true, if_false]
      rw [if_pos hP]
    simp only [BuildRawTransaction, getReceiverAndAmount,
      hchain, hfrom, hmpc, hswap, hpub, htokKey, hmtokne, hcfg, hbind, haddr,
      hbridge, hextra, hnonnative, isEqualIgnoreCase_refl]
    simp only [not_true, not_false_eq_true, and_false, false_and, false_or,
      or_false, if_true, if_false, ite_true, ite_false, ne_eq, if_neg,
      not_false_iff, Option.getD_some, and_true, true_and, Bool.false_eq_true]
    rw [hpay, hchk]
  · intro hP hQ
    have hchk : checkNativeBalance env args.bind none false = .ok () := by
      simp only [checkNativeBalance, hrb]
      rw [if_neg hP]
    have hchk2 : checkNonNativeBalance env token.rippleExtra.currency
        token.rippleExtra.issuer args.fromAddr amt =
        .error ("insufficient " ++ token.rippleExtra.currency ++
          " balance, issuer: " ++ token.rippleExtra.issuer ++
          ", account: " ++ args.fromAddr) := by
      simp only [checkNonNativeBalance, hline]
      rw [if_pos hQ]
    simp only [BuildRawTransaction, getReceiverAndAmount,
      hchain, hfrom, hmpc, hswap, hpub, htokKey, hmtokne, hcfg, hbind, haddr,
      hbridge, hextra, hnonnative, isEqualIgnoreCase_refl]
    simp only [not_true, not_false_eq_true, and_false, false_and, false_or,
      or_false, if_true, if_false, ite_true, ite_false, ne_eq, if_neg,
      not_false_iff, Option.getD_some, and_true, true_and, Bool.false_eq_true]
    rw [hpay]
    simp [hchk, hchk2]

/-- Environment of the C7 scenario: issued-asset token (USD, rIssuerX),
destination account with zero native balance, trust line balance 5. -/
def envC7 : Env :=
  { baseEnv with
    getTokenConfig := fun _ => some ⟨6, ⟨"USD", "rIssuerX", false⟩⟩
    getBalance := fun _ => .ok 0
    getAccountLine := fun _ _ _ => .ok 5 }

/-- Witness for C7: destination with zero native balance fails with the
receiver error regardless of the issued amount. -/
theorem build_issued_insufficient_balance_witness :
    BuildRawTransaction envC7 argsExtraW =
      some (none, some ("insufficient native balance, receiver: " ++ argsExtraW.bind)) :=
  (build_issued_insufficient_balance envC7 argsExtraW ⟨6, ⟨"USD", "rIssuerX", false⟩⟩
      "tokenKey" ⟨18, ⟨"XRP", "", true⟩⟩ 1 "10" (.issued 1 "USD" "rIssuerX")
      5 0
      rfl (by decide) rfl rfl (by decide) rfl (by decide) rfl (by decide) rfl
      rfl rfl (by decide) rfl rfl rfl).1
    (by decide)

/-! ## Claim C2 -/

/-- Failure behaviour of the unsigned-transaction assembler: on a fee
parse failure or a signing-hash failure, `NewUnsignedPaymentTransaction`
returns a nil transaction (with no error value — the function has no
error result at all). -/
theorem NewUnsignedPaymentTransaction_none (env : Env) (txseq : Nat)
    (dest : String) (dtag : Option Nat) (amt fee memo path : String)
    (nd pp lq : Bool)
    (h : (∃ e, env.newValue fee true = .error e) ∨
      (∀ p, ∃ e, env.signingHash p = .error e)) :
    (NewUnsignedPaymentTransaction env txseq dest dtag amt fee memo path nd pp lq).1 =
      none := by
  simp only [NewUnsignedPaymentTransaction]
  rcases h with ⟨e, he⟩ | hall
  · rw [he]
  · cases hnv : env.newValue fee true with
    | error e => simp
    | ok u =>
      obtain ⟨e, he⟩ := hall _
      rw [he]

/-- Environment whose fee parser rejects the string `"badfee"`. -/
def envC2 : Env :=
  { baseEnv with
    newValue := fun f _ => if f = "badfee" then .error "invalid value" else .ok () }

/-- Request carrying the malformed fee string. -/
def argsC2 : BuildTxArgs :=
  { argsW with extra := some { sequence := some 1, fee := some "badfee" } }

/-- C2 counterexample: with a malformed fee string (`"badfee"`), every
precondition and balance check passes, the fee parse inside
`NewUnsignedPaymentTransaction` fails, its error is discarded by
`rawtx, _, _ := ...` (buildtx.go:116), and `BuildRawTransaction` returns
a nil transaction together with a nil error — contradicting the claim
that it returns a caller-visible (non-nil) error and never returns
success with a nil transaction. -/
theorem buildRawTransaction_nil_error_on_bad_fee :
    BuildRawTransaction envC2 argsC2 = some (none, none) := by decide

/-- C2 (amended): any malformed fee/value string or signing-hash failure
during unsigned-transaction assembly aborts the build with a nil
transaction, but `BuildRawTransaction` returns that nil transaction with
a nil error: the failure is visible to the caller only as a nil
transaction, never as a non-nil error. -/
theorem build_bad_fee_nil_error (env : Env) (args : BuildTxArgs)
    (token : TokenConfig) (mtok : String) (ftc : TokenConfig)
    (seqv : Nat) (feev : String) (amt : PaymentAmount)
    (senderBal receiverBal : Int)
    (hchain : args.toChainID = env.chainID)
    (hfrom : args.fromAddr ≠ "")
    (hmpc : env.getRouterMPC = .ok args.fromAddr)
    (hswap : args.swapType = erc20SwapType)
    (hpub : env.getMPCPublicKey args.fromAddr ≠ "")
    (htokKey : env.getCachedMultichainToken args.tokenID = mtok)
    (hmtokne : mtok ≠ "")
    (hcfg : env.getTokenConfig mtok = some token)
    (hbind : args.bind ≠ "")
    (haddr : env.isValidAddress args.bind = true)
    (hbridge : env.fromBridgeToken = some (some ftc))
    (hextra : args.extra = some { sequence := some seqv, fee := some feev })
    (hpay : getPaymentAmount env env.calcSwapValue token = .ok amt)
    (hnative : token.rippleExtra.isNativeToken = true)
    (hsb : env.getBalance args.fromAddr = .ok senderBal)
    (hrb : env.getBalance args.bind = .ok receiverBal)
    (hS : ¬ senderBal - (env.calcSwapValue + getMinReserveFee env) < accountReserve)
    (hR : ¬ receiverBal + env.calcSwapValue < accountReserve)
    (hasm : (∃ e, env.newValue feev true = .error e) ∨
      (∀ p, ∃ e, env.signingHash p = .error e)) :
    BuildRawTransaction env args = some (none, none) := by
  have hchk1 : checkNativeBalance env args.fromAddr
      (some (env.calcSwapValue + getMinReserveFee env)) true = .ok () := by
    simp only [checkNativeBalance, hsb, if_true]
    rw [if_neg hS]
  have hchk2 : checkNativeBalance env args.bind (some env.calcSwapValue) false =
      .ok () := by
    simp only [checkNativeBalance, hrb, Bool.false_eq_true, if_false]
    rw [if_neg hR]
  have hnone : (NewUnsignedPaymentTransaction env seqv args.bind none
      (env.amountString amt) feev "" "" false false false).1 = none :=
    NewUnsignedPaymentTransaction_none env seqv args.bind none
      (env.amountString amt) feev "" "" false false false hasm
  simp only [BuildRawTransaction, getReceiverAndAmount,
    hchain, hfrom, hmpc, hswap, hpub, htokKey, hmtokne, hcfg, hbind, haddr,
    hbridge, hextra, hnative, isEqualIgnoreCase_refl]
  simp only [not_true, not_false_eq_true, and_false, false_and, false_or,
    or_false, if_true, if_false, ite_true, ite_false, ne_eq, if_neg,
    not_false_iff, Option.getD_some, and_true, true_and, Bool.false_eq_true]
  rw [hpay]
  simp [hchk1, hchk2, hnone]

/-- Witness for the amended C2 at the concrete malformed-fee input. -/
theorem build_bad_fee_nil_error_witness :
    BuildRawTransaction envC2 argsC2 = some (none, none) :=
  build_bad_fee_nil_error envC2 argsC2 ⟨6, ⟨"XRP", "", true⟩⟩ "tokenKey"
    ⟨18, ⟨"XRP", "", true⟩⟩ 1 "badfee" (.native 1000000) 100000000 100000000
    rfl (by decide) rfl rfl (by decide) rfl (by decide) rfl (by decide) rfl
    rfl rfl rfl rfl rfl rfl (by decide) (by decide)
    (Or.inl ⟨"invalid value", rfl⟩)

/-! ## Claim C5 -/

/-- Environment whose ledger account fetch fails (RPC failure or unknown
account). -/
def envC5 : Env := { baseEnv with getAccount := fun _ => .error "rpc timeout" }

/-- Environment whose account fetch succeeds with a nil sequence field. -/
def envC5ok : Env :=
  { baseEnv with getAccount := fun _ => .ok { sequence := none } }

/-- C5 (code bug): when the sequence fetch fails (`GetAccount` returns an
error), `GetSeq` returns a nil pointer with the error, and
`swapoutDefaultArgs` — after merely logging a warning — dereferences that
nil pointer (`*args.Sequence = *seq`, buildtx.go:205), so
`BuildRawTransaction` panics (`none`) instead of proceeding with sequence
zero; the zero-sequence soft path exists only when the account record is
fetched successfully with an absent sequence field (second conjunct). -/
theorem buildRawTransaction_seq_fetch_failure_panics :
    BuildRawTransaction envC5 argsW = none ∧
      (BuildRawTransaction envC5ok argsW).isSome = true := by
  exact ⟨by decide, by decide⟩
